import Mathlib

/-!
Shallow embedding of the FMI2 logging callback renderer of `rust-fmi`.

The repository carries two C implementations of the same routine:

* `fmi-sys/src/fmi2/logger.c` — `callback_logger_handler`, which measures the
  expansion with `vsnprintf(NULL, 0, message, args)`, ends the argument
  cursor, re-initializes it with a second `va_start`, renders with
  `vsprintf`, forwards to `callback_log`, and frees the buffer;
* `src/logger.c` — `callback_logger_handler`, which measures with the same
  `vsnprintf` call but then renders with `vsprintf(buffer, message, args)`
  on the *same*, already consumed, argument cursor.

We model the printf engine over a small but representative format language
(`%d`, `%s`, `%%`, literal characters), with an explicit argument cursor.
Consuming the cursor is explicit: formatting returns the rendered characters
together with the remaining cursor.  A specifier that finds no argument of
the matching kind is undefined behavior in C; the model returns `none`.

A handler invocation is modelled as a pure function producing an event trace
(`alloc`/`free`/`sink` events); `none` as a whole-call result marks a call
that runs into undefined behavior.  Allocation success is an explicit
boolean input standing for the outcome of `malloc`.
-/

/-- A variadic argument as passed to the logger: an integer or a string. -/
inductive Arg
  | int : Int → Arg
  | str : List Char → Arg
deriving DecidableEq

/-- One token of a printf-style format string: a literal character, the
`%d` specifier, the `%s` specifier, or the escape `%%`. -/
inductive FmtTok
  | lit : Char → FmtTok
  | d : FmtTok
  | s : FmtTok
  | pct : FmtTok
deriving DecidableEq

/-- The printf expansion engine shared by `vsnprintf` and `vsprintf`:
renders a format against an argument cursor, returning the expansion and
the advanced cursor.  `none` models the undefined behavior of a conversion
specifier whose matching argument is missing or of the wrong kind. -/
def vformat : List FmtTok → List Arg → Option (List Char × List Arg)
  | [], as => some ([], as)
  | FmtTok.lit c :: ts, as =>
      (vformat ts as).map fun r => (c :: r.1, r.2)
  | FmtTok.pct :: ts, as =>
      (vformat ts as).map fun r => ('%' :: r.1, r.2)
  | FmtTok.d :: ts, Arg.int v :: as =>
      (vformat ts as).map fun r => ((toString v).data ++ r.1, r.2)
  | FmtTok.d :: _, Arg.str _ :: _ => none
  | FmtTok.d :: _, [] => none
  | FmtTok.s :: ts, Arg.str w :: as =>
      (vformat ts as).map fun r => (w ++ r.1, r.2)
  | FmtTok.s :: _, Arg.int _ :: _ => none
  | FmtTok.s :: _, [] => none

/-- The conventional expansion of a format with an argument tuple: the
rendered characters, ignoring the final cursor position. -/
def expand (fmt : List FmtTok) (args : List Arg) : Option (List Char) :=
  (vformat fmt args).map Prod.fst

/-- The metadata-plus-message record handed to the host sink
(`callback_log`).  The message is the rendered character sequence stored in
the buffer before its terminating null byte. -/
structure SinkCall where
  env : Nat
  instanceName : List Char
  status : Nat
  category : List Char
  message : List Char
deriving DecidableEq

/-- Observable events of one handler invocation: a heap allocation request
of a given size with its outcome, a release of the call's buffer, and an
invocation of the host sink. -/
inductive Event
  | alloc : Nat → Bool → Event
  | free : Event
  | sink : SinkCall → Event
deriving DecidableEq

namespace FmiSys

/-- The function `callback_logger_handler` of `fmi-sys/src/fmi2/logger.c`.

`va_start`; `buffer_size := vsnprintf(NULL, 0, message, args)`; `va_end`.
If `buffer_size > 0`: `malloc(buffer_size + 1)`; if the buffer is non-null:
`va_start` afresh, `vsprintf(buffer, message, args)`, `va_end`,
`callback_log(..., buffer)`, `free(buffer)`.

The second `va_start`/`va_end` pair makes the render pass run on a cursor
re-derived from the original call, so it formats `args` from the start. -/
def callback_logger_handler (env : Nat) (instanceName : List Char)
    (status : Nat) (category : List Char) (message : List FmtTok)
    (args : List Arg) (allocOk : Bool) : Option (List Event) :=
  match vformat message args with
  | none => none
  | some (s, _) =>
    if s.length > 0 then
      if allocOk then
        match vformat message args with
        | none => none
        | some (s2, _) =>
          some [Event.alloc (s.length + 1) true,
                Event.sink ⟨env, instanceName, status, category, s2⟩,
                Event.free]
      else some [Event.alloc (s.length + 1) false]
    else some []

end FmiSys

namespace Fmi

/-- The function `callback_logger_handler` of `src/logger.c`.

`va_start`; `buffer_size := vsnprintf(NULL, 0, message, args)`.
If `buffer_size > 0`: `malloc(buffer_size + 1)`; if the buffer is non-null:
`vsprintf(buffer, message, args)` — on the cursor the measurement pass has
already consumed — then `callback_log(..., buffer)`, `free(buffer)`; one
`va_end` at the end.

The render pass therefore formats from the *remaining* cursor returned by
the measurement pass, the model of re-traversing a consumed `va_list`. -/
def callback_logger_handler (env : Nat) (instanceName : List Char)
    (status : Nat) (category : List Char) (message : List FmtTok)
    (args : List Arg) (allocOk : Bool) : Option (List Event) :=
  match vformat message args with
  | none => none
  | some (s, rest) =>
    if s.length > 0 then
      if allocOk then
        match vformat message rest with
        | none => none
        | some (s2, _) =>
          some [Event.alloc (s.length + 1) true,
                Event.sink ⟨env, instanceName, status, category, s2⟩,
                Event.free]
      else some [Event.alloc (s.length + 1) false]
    else some []

end Fmi

/-- The sink invocations recorded in a trace, in order. -/
def sinkCalls (t : List Event) : List SinkCall :=
  t.filterMap fun e =>
    match e with
    | Event.sink c => some c
    | _ => none

/-- Number of allocation requests (of any outcome) in a trace. -/
def countAlloc (t : List Event) : Nat :=
  t.countP fun e =>
    match e with
    | Event.alloc _ _ => true
    | _ => false

/-- Number of successful allocations in a trace. -/
def countAllocOk (t : List Event) : Nat :=
  t.countP fun e =>
    match e with
    | Event.alloc _ true => true
    | _ => false

/-- Number of buffer releases in a trace. -/
def countFree (t : List Event) : Nat :=
  t.countP fun e =>
    match e with
    | Event.free => true
    | _ => false

example :
    FmiSys.callback_logger_handler 0 "i".data 1 "c".data
      [FmtTok.lit 'v', FmtTok.lit '=', FmtTok.d] [Arg.int 42] true =
    some [Event.alloc 5 true,
          Event.sink ⟨0, "i".data, 1, "c".data, "v=42".data⟩,
          Event.free] := by decide

example :
    Fmi.callback_logger_handler 0 "i".data 1 "c".data
      [FmtTok.lit 'v', FmtTok.lit '=', FmtTok.d] [Arg.int 42] true =
    none := by decide

example :
    Fmi.callback_logger_handler 0 "i".data 1 "c".data
      [FmtTok.d] [Arg.int 1, Arg.int 2] true =
    some [Event.alloc 2 true,
          Event.sink ⟨0, "i".data, 1, "c".data, "2".data⟩,
          Event.free] := by decide

/-! ### Shape lemmas -/

/-- Once the measurement pass is known, the `fmi-sys` handler's trace is
determined: the render pass re-runs `vformat` on the re-initialized cursor,
which yields the same expansion again. -/
theorem FmiSys.sys_shape (env : Nat) (inst : List Char) (st : Nat)
    (cat : List Char) (fmt : List FmtTok) (args : List Arg) (allocOk : Bool)
    (s : List Char) (rest : List Arg)
    (hm : vformat fmt args = some (s, rest)) :
    FmiSys.callback_logger_handler env inst st cat fmt args allocOk =
      if 0 < s.length then
        if allocOk then
          some [Event.alloc (s.length + 1) true,
                Event.sink ⟨env, inst, st, cat, s⟩, Event.free]
        else some [Event.alloc (s.length + 1) false]
      else some [] := by
  simp [FmiSys.callback_logger_handler, hm]

/-- Once the measurement pass is known, the `src` handler's trace is
determined up to the outcome of re-running `vformat` on the *consumed*
cursor `rest`. -/
theorem Fmi.src_shape (env : Nat) (inst : List Char) (st : Nat)
    (cat : List Char) (fmt : List FmtTok) (args : List Arg) (allocOk : Bool)
    (s : List Char) (rest : List Arg)
    (hm : vformat fmt args = some (s, rest)) :
    Fmi.callback_logger_handler env inst st cat fmt args allocOk =
      if 0 < s.length then
        if allocOk then
          match vformat fmt rest with
          | none => none
          | some (s2, _) =>
            some [Event.alloc (s.length + 1) true,
                  Event.sink ⟨env, inst, st, cat, s2⟩, Event.free]
        else some [Event.alloc (s.length + 1) false]
      else some [] := by
  simp [Fmi.callback_logger_handler, hm]

/-! ### Balance helper lemmas -/

/-- Every defined trace of the `fmi-sys` handler balances successful
allocations with releases, requests at most one allocation, and, when an
allocation succeeded, ends in the release. -/
theorem FmiSys.sys_balanced (env : Nat) (inst : List Char) (st : Nat)
    (cat : List Char) (fmt : List FmtTok) (args : List Arg) (allocOk : Bool)
    (t : List Event)
    (ht : FmiSys.callback_logger_handler env inst st cat fmt args allocOk =
      some t) :
    countAllocOk t = countFree t ∧ countAlloc t ≤ 1 ∧
      (countAllocOk t = 1 → t.getLast? = some Event.free) := by
  cases hm : vformat fmt args with
  | none => simp [FmiSys.callback_logger_handler, hm] at ht
  | some p =>
    obtain ⟨s, rest⟩ := p
    rw [FmiSys.sys_shape env inst st cat fmt args allocOk s rest hm] at ht
    by_cases hl : 0 < s.length
    · cases allocOk
      · simp only [hl, if_pos, if_true, Bool.false_eq_true, if_false,
          Option.some.injEq] at ht
        subst ht
        simp [countAllocOk, countAlloc, countFree, List.countP_cons, List.countP_nil]
      · simp only [hl, if_pos, if_true, Option.some.injEq] at ht
        subst ht
        simp [countAllocOk, countAlloc, countFree, List.countP_cons, List.countP_nil]
    · simp only [hl, if_false, Option.some.injEq] at ht
      subst ht
      simp [countAllocOk, countAlloc, countFree, List.countP_cons, List.countP_nil]

/-- Every defined trace of the `src` handler balances successful
allocations with releases, requests at most one allocation, and, when an
allocation succeeded, ends in the release. -/
theorem Fmi.src_balanced (env : Nat) (inst : List Char) (st : Nat)
    (cat : List Char) (fmt : List FmtTok) (args : List Arg) (allocOk : Bool)
    (t : List Event)
    (ht : Fmi.callback_logger_handler env inst st cat fmt args allocOk =
      some t) :
    countAllocOk t = countFree t ∧ countAlloc t ≤ 1 ∧
      (countAllocOk t = 1 → t.getLast? = some Event.free) := by
  cases hm : vformat fmt args with
  | none => simp [Fmi.callback_logger_handler, hm] at ht
  | some p =>
    obtain ⟨s, rest⟩ := p
    rw [Fmi.src_shape env inst st cat fmt args allocOk s rest hm] at ht
    by_cases hl : 0 < s.length
    · cases allocOk
      · simp only [hl, if_pos, if_true, Bool.false_eq_true, if_false,
          Option.some.injEq] at ht
        subst ht
        simp [countAllocOk, countAlloc, countFree, List.countP_cons, List.countP_nil]
      · cases hr : vformat fmt rest with
        | none => simp [hl, hr] at ht
        | some q =>
          obtain ⟨s2, rest2⟩ := q
          simp only [hl, if_pos, if_true, hr, Option.some.injEq] at ht
          subst ht
          simp [countAllocOk, countAlloc, countFree, List.countP_cons, List.countP_nil]
    · simp only [hl, if_false, Option.some.injEq] at ht
      subst ht
      simp [countAllocOk, countAlloc, countFree, List.countP_cons, List.countP_nil]

/-! ### C3 -/

/-- C3: whenever the measurement pass yields a count that is not positive,
both implementations of `callback_logger_handler` produce the empty event
trace: no buffer is allocated and the host sink is never called — the call
is a silent no-op. -/
theorem c3_nonpositive_count_silent_noop (env : Nat) (inst : List Char)
    (st : Nat) (cat : List Char) (fmt : List FmtTok) (args : List Arg)
    (allocOk : Bool) (s : List Char) (rest : List Arg)
    (hm : vformat fmt args = some (s, rest)) (hz : s.length = 0) :
    FmiSys.callback_logger_handler env inst st cat fmt args allocOk =
      some [] ∧
    Fmi.callback_logger_handler env inst st cat fmt args allocOk =
      some [] := by
  rw [FmiSys.sys_shape env inst st cat fmt args allocOk s rest hm,
    Fmi.src_shape env inst st cat fmt args allocOk s rest hm]
  simp [hz]

/-- Witness for C3 at the concrete call `"%s"` with the empty string. -/
theorem c3_nonpositive_count_silent_noop_witness :
    FmiSys.callback_logger_handler 3 "n".data 2 "log".data
      [FmtTok.s] [Arg.str []] true = some [] ∧
    Fmi.callback_logger_handler 3 "n".data 2 "log".data
      [FmtTok.s] [Arg.str []] true = some [] :=
  c3_nonpositive_count_silent_noop 3 "n".data 2 "log".data
    [FmtTok.s] [Arg.str []] true [] [] (by decide) rfl

/-! ### C4 -/

/-- C4: when the measured count is positive but the allocation fails, both
implementations produce only the failed allocation request: the host sink
is never called, no release happens, and the call still returns a defined
(fault-free) result — the message is silently dropped. -/
theorem c4_alloc_failure_silent_drop (env : Nat) (inst : List Char)
    (st : Nat) (cat : List Char) (fmt : List FmtTok) (args : List Arg)
    (s : List Char) (rest : List Arg)
    (hm : vformat fmt args = some (s, rest)) (hp : 0 < s.length) :
    FmiSys.callback_logger_handler env inst st cat fmt args false =
      some [Event.alloc (s.length + 1) false] ∧
    Fmi.callback_logger_handler env inst st cat fmt args false =
      some [Event.alloc (s.length + 1) false] ∧
    sinkCalls [Event.alloc (s.length + 1) false] = [] := by
  rw [FmiSys.sys_shape env inst st cat fmt args false s rest hm,
    Fmi.src_shape env inst st cat fmt args false s rest hm]
  simp [hp, sinkCalls]

/-- Witness for C4 at the concrete call `"%d"` with argument `7` and a
failed allocation. -/
theorem c4_alloc_failure_silent_drop_witness :
    FmiSys.callback_logger_handler 0 "n".data 1 "c".data
      [FmtTok.d] [Arg.int 7] false = some [Event.alloc 2 false] ∧
    Fmi.callback_logger_handler 0 "n".data 1 "c".data
      [FmtTok.d] [Arg.int 7] false = some [Event.alloc 2 false] ∧
    sinkCalls [Event.alloc 2 false] = [] :=
  c4_alloc_failure_silent_drop 0 "n".data 1 "c".data
    [FmtTok.d] [Arg.int 7] "7".data [] (by decide) (by decide)

/-! ### C5 -/

/-- C5: every allocation request of either implementation asks for exactly
the measured expansion length plus one (the terminator byte), never a fixed
size; each call allocates at most one buffer (never reusing one across
calls); and in the `fmi-sys` implementation the message handed to the sink
fills the buffer exactly — the full expansion, untruncated. -/
theorem c5_exact_buffer_size (env : Nat) (inst : List Char) (st : Nat)
    (cat : List Char) (fmt : List FmtTok) (args : List Arg) (allocOk : Bool)
    (s : List Char) (rest : List Arg)
    (hm : vformat fmt args = some (s, rest)) :
    (∀ t, FmiSys.callback_logger_handler env inst st cat fmt args allocOk =
        some t →
      (∀ n b, Event.alloc n b ∈ t → n = s.length + 1) ∧ countAlloc t ≤ 1 ∧
      ∀ c ∈ sinkCalls t, c.message = s ∧ c.message.length = s.length) ∧
    (∀ t, Fmi.callback_logger_handler env inst st cat fmt args allocOk =
        some t →
      (∀ n b, Event.alloc n b ∈ t → n = s.length + 1) ∧ countAlloc t ≤ 1) := by
  constructor
  · intro t ht
    rw [FmiSys.sys_shape env inst st cat fmt args allocOk s rest hm] at ht
    by_cases hl : 0 < s.length
    · cases allocOk
      · simp only [hl, if_true, Bool.false_eq_true, if_false,
          Option.some.injEq] at ht
        subst ht
        refine ⟨?_, ?_, ?_⟩
        · intro n b h
          simp only [List.mem_singleton, Event.alloc.injEq] at h
          exact h.1
        · simp [countAlloc, List.countP_cons, List.countP_nil]
        · intro c hc
          simp [sinkCalls] at hc
      · simp only [hl, if_true, Option.some.injEq] at ht
        subst ht
        refine ⟨?_, ?_, ?_⟩
        · intro n b h
          simp only [List.mem_cons, List.mem_singleton] at h
          rcases h with h | h | h
          · exact (Event.alloc.injEq .. ▸ h).1
          · exact absurd h (by simp)
          · exact absurd h (by simp)
        · simp [countAlloc, List.countP_cons, List.countP_nil]
        · intro c hc
          simp only [sinkCalls, List.filterMap_cons, List.filterMap_nil] at hc
          simp only [List.mem_singleton] at hc
          subst hc
          exact ⟨rfl, rfl⟩
    · simp only [hl, if_false, Option.some.injEq] at ht
      subst ht
      refine ⟨?_, ?_, ?_⟩
      · intro n b h
        exact absurd h (by simp)
      · simp [countAlloc, List.countP_nil]
      · intro c hc
        simp [sinkCalls] at hc
  · intro t ht
    rw [Fmi.src_shape env inst st cat fmt args allocOk s rest hm] at ht
    by_cases hl : 0 < s.length
    · cases allocOk
      · simp only [hl, if_true, Bool.false_eq_true, if_false,
          Option.some.injEq] at ht
        subst ht
        refine ⟨?_, ?_⟩
        · intro n b h
          simp only [List.mem_singleton, Event.alloc.injEq] at h
          exact h.1
        · simp [countAlloc, List.countP_cons, List.countP_nil]
      · cases hr : vformat fmt rest with
        | none => simp [hl, hr] at ht
        | some q =>
          obtain ⟨s2, rest2⟩ := q
          simp only [hl, if_true, hr, Option.some.injEq] at ht
          subst ht
          refine ⟨?_, ?_⟩
          · intro n b h
            simp only [List.mem_cons, List.mem_singleton] at h
            rcases h with h | h | h
            · exact (Event.alloc.injEq .. ▸ h).1
            · exact absurd h (by simp)
            · exact absurd h (by simp)
          · simp [countAlloc, List.countP_cons, List.countP_nil]
    · simp only [hl, if_false, Option.some.injEq] at ht
      subst ht
      refine ⟨?_, ?_⟩
      · intro n b h
        exact absurd h (by simp)
      · simp [countAlloc, List.countP_nil]

/-- Witness for C5 at the concrete call `"%d"` with argument `42`. -/
theorem c5_exact_buffer_size_witness :
    (∀ n b, Event.alloc n b ∈
        [Event.alloc 3 true,
         Event.sink ⟨0, "i".data, 1, "c".data, "42".data⟩, Event.free] →
      n = ("42".data).length + 1) ∧
    countAlloc
        [Event.alloc 3 true,
         Event.sink ⟨0, "i".data, 1, "c".data, "42".data⟩, Event.free] ≤ 1 ∧
    ∀ c ∈ sinkCalls
        [Event.alloc 3 true,
         Event.sink ⟨0, "i".data, 1, "c".data, "42".data⟩, Event.free],
      c.message = "42".data ∧ c.message.length = ("42".data).length :=
  (c5_exact_buffer_size 0 "i".data 1 "c".data [FmtTok.d] [Arg.int 42] true
      "42".data [] (by decide)).1
    [Event.alloc 3 true,
     Event.sink ⟨0, "i".data, 1, "c".data, "42".data⟩, Event.free]
    (by decide)

/-! ### C6 -/

/-- C6: every defined invocation of either implementation performs at most
one allocation request, the number of successful allocations equals the
number of releases (zero or one matching pair), and whenever an allocation
succeeded the last event of the call is the release — no reference to the
buffer survives the call. -/
theorem c6_one_alloc_release_pair (env : Nat) (inst : List Char) (st : Nat)
    (cat : List Char) (fmt : List FmtTok) (args : List Arg) (allocOk : Bool) :
    (∀ t, FmiSys.callback_logger_handler env inst st cat fmt args allocOk =
        some t →
      countAlloc t ≤ 1 ∧ countAllocOk t = countFree t ∧
      (countAllocOk t = 1 → t.getLast? = some Event.free)) ∧
    (∀ t, Fmi.callback_logger_handler env inst st cat fmt args allocOk =
        some t →
      countAlloc t ≤ 1 ∧ countAllocOk t = countFree t ∧
      (countAllocOk t = 1 → t.getLast? = some Event.free)) := by
  refine ⟨fun t ht => ?_, fun t ht => ?_⟩
  · obtain ⟨h1, h2, h3⟩ :=
      FmiSys.sys_balanced env inst st cat fmt args allocOk t ht
    exact ⟨h2, h1, h3⟩
  · obtain ⟨h1, h2, h3⟩ :=
      Fmi.src_balanced env inst st cat fmt args allocOk t ht
    exact ⟨h2, h1, h3⟩

/-- Witness for C6 at the concrete call `"%d"` with argument `42`. -/
theorem c6_one_alloc_release_pair_witness :
    countAlloc
        [Event.alloc 3 true,
         Event.sink ⟨0, "i".data, 1, "c".data, "42".data⟩, Event.free] ≤ 1 ∧
    countAllocOk
        [Event.alloc 3 true,
         Event.sink ⟨0, "i".data, 1, "c".data, "42".data⟩, Event.free] =
      countFree
        [Event.alloc 3 true,
         Event.sink ⟨0, "i".data, 1, "c".data, "42".data⟩, Event.free] ∧
    (countAllocOk
        [Event.alloc 3 true,
         Event.sink ⟨0, "i".data, 1, "c".data, "42".data⟩, Event.free] = 1 →
      ([Event.alloc 3 true,
        Event.sink ⟨0, "i".data, 1, "c".data, "42".data⟩,
        Event.free] : List Event).getLast? = some Event.free) :=
  (c6_one_alloc_release_pair 0 "i".data 1 "c".data
      [FmtTok.d] [Arg.int 42] true).1
    [Event.alloc 3 true,
     Event.sink ⟨0, "i".data, 1, "c".data, "42".data⟩, Event.free]
    (by decide)

/-! ### C7 -/

/-- C7: every sink invocation recorded by a defined call of either
implementation carries the environment handle, instance name, status code
and category exactly as the caller supplied them. -/
theorem c7_metadata_forwarded_verbatim (env : Nat) (inst : List Char)
    (st : Nat) (cat : List Char) (fmt : List FmtTok) (args : List Arg)
    (allocOk : Bool) (t : List Event) (c : SinkCall)
    (ht : FmiSys.callback_logger_handler env inst st cat fmt args allocOk =
        some t ∨
      Fmi.callback_logger_handler env inst st cat fmt args allocOk = some t)
    (hc : c ∈ sinkCalls t) :
    c.env = env ∧ c.instanceName = inst ∧ c.status = st ∧
      c.category = cat := by
  rcases ht with ht | ht
  · cases hm : vformat fmt args with
    | none => simp [FmiSys.callback_logger_handler, hm] at ht
    | some p =>
      obtain ⟨s, rest⟩ := p
      rw [FmiSys.sys_shape env inst st cat fmt args allocOk s rest hm]
        at ht
      by_cases hl : 0 < s.length
      · cases allocOk
        · simp only [hl, if_true, Bool.false_eq_true, if_false,
            Option.some.injEq] at ht
          subst ht
          simp [sinkCalls] at hc
        · simp only [hl, if_true, Option.some.injEq] at ht
          subst ht
          simp only [sinkCalls, List.filterMap_cons, List.filterMap_nil,
            List.mem_singleton] at hc
          subst hc
          exact ⟨rfl, rfl, rfl, rfl⟩
      · simp only [hl, if_false, Option.some.injEq] at ht
        subst ht
        simp [sinkCalls] at hc
  · cases hm : vformat fmt args with
    | none => simp [Fmi.callback_logger_handler, hm] at ht
    | some p =>
      obtain ⟨s, rest⟩ := p
      rw [Fmi.src_shape env inst st cat fmt args allocOk s rest hm] at ht
      by_cases hl : 0 < s.length
      · cases allocOk
        · simp only [hl, if_true, Bool.false_eq_true, if_false,
            Option.some.injEq] at ht
          subst ht
          simp [sinkCalls] at hc
        · cases hr : vformat fmt rest with
          | none => simp [hl, hr] at ht
          | some q =>
            obtain ⟨s2, rest2⟩ := q
            simp only [hl, if_true, hr, Option.some.injEq] at ht
            subst ht
            simp only [sinkCalls, List.filterMap_cons, List.filterMap_nil,
              List.mem_singleton] at hc
            subst hc
            exact ⟨rfl, rfl, rfl, rfl⟩
      · simp only [hl, if_false, Option.some.injEq] at ht
        subst ht
        simp [sinkCalls] at hc

/-- Witness for C7 at the concrete call `"%d"` with argument `7` and
metadata `(5, "a", 2, "b")`. -/
theorem c7_metadata_forwarded_verbatim_witness :
    (⟨5, "a".data, 2, "b".data, "7".data⟩ : SinkCall).env = 5 ∧
    (⟨5, "a".data, 2, "b".data, "7".data⟩ : SinkCall).instanceName =
      "a".data ∧
    (⟨5, "a".data, 2, "b".data, "7".data⟩ : SinkCall).status = 2 ∧
    (⟨5, "a".data, 2, "b".data, "7".data⟩ : SinkCall).category = "b".data :=
  c7_metadata_forwarded_verbatim 5 "a".data 2 "b".data
    [FmtTok.d] [Arg.int 7] true
    [Event.alloc 2 true,
     Event.sink ⟨5, "a".data, 2, "b".data, "7".data⟩, Event.free]
    ⟨5, "a".data, 2, "b".data, "7".data⟩
    (Or.inl (by decide)) (by decide)

/-! ### C8 -/

/-- Two back-to-back invocations of the `fmi-sys` handler with identical
arguments: the traces of both calls, concatenated. -/
def FmiSys.callback_logger_handler_twice (env : Nat) (inst : List Char)
    (st : Nat) (cat : List Char) (fmt : List FmtTok) (args : List Arg)
    (allocOk : Bool) : Option (List Event) :=
  (FmiSys.callback_logger_handler env inst st cat fmt args allocOk).bind
    fun t1 =>
      (FmiSys.callback_logger_handler env inst st cat fmt args allocOk).map
        fun t2 => t1 ++ t2

/-- Two back-to-back invocations of the `src` handler with identical
arguments: the traces of both calls, concatenated. -/
def Fmi.callback_logger_handler_twice (env : Nat) (inst : List Char)
    (st : Nat) (cat : List Char) (fmt : List FmtTok) (args : List Arg)
    (allocOk : Bool) : Option (List Event) :=
  (Fmi.callback_logger_handler env inst st cat fmt args allocOk).bind
    fun t1 =>
      (Fmi.callback_logger_handler env inst st cat fmt args allocOk).map
        fun t2 => t1 ++ t2

/-- C8: for either implementation, calling the handler twice with identical
arguments duplicates the single-call trace — the second call's sink
messages are identical to the first call's — and each call's successful
allocation is released within its own trace, so no buffer is shared between
the two calls. -/
theorem c8_two_calls_independent_identical (env : Nat) (inst : List Char)
    (st : Nat) (cat : List Char) (fmt : List FmtTok) (args : List Arg)
    (allocOk : Bool) :
    (FmiSys.callback_logger_handler_twice env inst st cat fmt args allocOk =
      (FmiSys.callback_logger_handler env inst st cat fmt args allocOk).map
        fun t => t ++ t) ∧
    (Fmi.callback_logger_handler_twice env inst st cat fmt args allocOk =
      (Fmi.callback_logger_handler env inst st cat fmt args allocOk).map
        fun t => t ++ t) ∧
    (∀ t, FmiSys.callback_logger_handler env inst st cat fmt args allocOk =
        some t →
      sinkCalls (t ++ t) = sinkCalls t ++ sinkCalls t ∧
      countAllocOk t = countFree t) ∧
    (∀ t, Fmi.callback_logger_handler env inst st cat fmt args allocOk =
        some t →
      sinkCalls (t ++ t) = sinkCalls t ++ sinkCalls t ∧
      countAllocOk t = countFree t) := by
  refine ⟨?_, ?_, fun t ht => ?_, fun t ht => ?_⟩
  · cases h : FmiSys.callback_logger_handler env inst st cat fmt args
        allocOk <;>
      simp [FmiSys.callback_logger_handler_twice, h]
  · cases h : Fmi.callback_logger_handler env inst st cat fmt args
        allocOk <;>
      simp [Fmi.callback_logger_handler_twice, h]
  · exact ⟨by simp [sinkCalls, List.filterMap_append],
      (FmiSys.sys_balanced env inst st cat fmt args allocOk t ht).1⟩
  · exact ⟨by simp [sinkCalls, List.filterMap_append],
      (Fmi.src_balanced env inst st cat fmt args allocOk t ht).1⟩

/-- Witness for C8 at the concrete call `"%d"` with argument `42`. -/
theorem c8_two_calls_independent_identical_witness :
    countAllocOk
        [Event.alloc 3 true,
         Event.sink ⟨0, "i".data, 1, "c".data, "42".data⟩, Event.free] =
      countFree
        [Event.alloc 3 true,
         Event.sink ⟨0, "i".data, 1, "c".data, "42".data⟩, Event.free] :=
  ((c8_two_calls_independent_identical 0 "i".data 1 "c".data
      [FmtTok.d] [Arg.int 42] true).2.2.1
    [Event.alloc 3 true,
     Event.sink ⟨0, "i".data, 1, "c".data, "42".data⟩, Event.free]
    (by decide)).2

/-! ### C1 -/

/-- C1 (failing on `src/logger.c`): at format `"%d"` with argument `42` the
conventional expansion is the two characters `42`, so the host sink should
receive exactly that message once; the `fmi-sys` implementation does so,
but the `src` implementation hands `vsprintf` the argument cursor already
consumed by the measurement pass, so its render pass finds no argument — in
C, undefined behavior; in the model, `none` — and the sink never receives
the conventional expansion. -/
theorem c1_src_sink_message_not_conventional_expansion :
    expand [FmtTok.d] [Arg.int 42] = some "42".data ∧
    0 < ("42".data).length ∧
    FmiSys.callback_logger_handler 0 "i".data 1 "c".data
        [FmtTok.d] [Arg.int 42] true =
      some [Event.alloc 3 true,
            Event.sink ⟨0, "i".data, 1, "c".data, "42".data⟩,
            Event.free] ∧
    Fmi.callback_logger_handler 0 "i".data 1 "c".data
      [FmtTok.d] [Arg.int 42] true = none := by decide

/-! ### C2 -/

/-- C2 (failing on `src/logger.c`): at format `"%d"` with arguments
`(1, 2)` the measurement pass consumes the first argument, leaving the
cursor at `2`.  The `src` implementation renders from that consumed cursor,
so its sink message is `2` — the second argument — while the `fmi-sys`
implementation, which re-initializes the cursor, delivers the conventional
expansion `1`.  The render pass of `src/logger.c` therefore reuses the
cursor consumed by the measurement pass instead of re-deriving it. -/
theorem c2_src_render_pass_reuses_consumed_cursor :
    vformat [FmtTok.d] [Arg.int 1, Arg.int 2] =
      some ("1".data, [Arg.int 2]) ∧
    Fmi.callback_logger_handler 7 "n".data 3 "cat".data
        [FmtTok.d] [Arg.int 1, Arg.int 2] true =
      some [Event.alloc 2 true,
            Event.sink ⟨7, "n".data, 3, "cat".data, "2".data⟩,
            Event.free] ∧
    FmiSys.callback_logger_handler 7 "n".data 3 "cat".data
        [FmtTok.d] [Arg.int 1, Arg.int 2] true =
      some [Event.alloc 2 true,
            Event.sink ⟨7, "n".data, 3, "cat".data, "1".data⟩,
            Event.free] := by decide

/-! ### C9 -/

/-- C9 counterexample: at format `"%s"` with the argument `"hi"` (and a
succeeding allocation) the two implementations disagree — the `fmi-sys`
handler forwards `hi` to the sink, while the `src` handler re-reads the
consumed cursor and runs into undefined behavior — so they are not
observationally equivalent. -/
theorem c9_not_observationally_equivalent :
    ¬ (Fmi.callback_logger_handler 2 "x".data 0 "y".data
         [FmtTok.s] [Arg.str "hi".data] true =
       FmiSys.callback_logger_handler 2 "x".data 0 "y".data
         [FmtTok.s] [Arg.str "hi".data] true) := by decide

/-- Returns `true` iff no token of the format consumes a variadic argument
(only literal characters and the `%%` escape). -/
def consumesNoArg (fmt : List FmtTok) : Bool :=
  fmt.all fun tk =>
    match tk with
    | FmtTok.lit _ => true
    | FmtTok.pct => true
    | FmtTok.d => false
    | FmtTok.s => false

/-- A format that consumes no argument always expands, and leaves the
argument cursor untouched. -/
theorem vformat_of_consumesNoArg (fmt : List FmtTok)
    (h : consumesNoArg fmt = true) (as : List Arg) :
    ∃ s, vformat fmt as = some (s, as) := by
  induction fmt with
  | nil => exact ⟨[], rfl⟩
  | cons tk ts ih =>
    simp only [consumesNoArg, List.all_cons, Bool.and_eq_true] at h
    obtain ⟨s, hs⟩ := ih h.2
    cases tk with
    | lit c => exact ⟨c :: s, by simp [vformat, hs]⟩
    | pct => exact ⟨'%' :: s, by simp [vformat, hs]⟩
    | d => simp at h
    | s => simp at h

/-- C9 amended: the two implementations agree on every call whose format
consumes no variadic argument (there the measurement pass leaves the cursor
where it started, so the missing re-initialization in `src/logger.c` is
harmless); with a format that does consume arguments and reaches the render
pass they diverge, as the counterexample shows. -/
theorem c9_equivalent_when_no_arg_consumed (env : Nat) (inst : List Char)
    (st : Nat) (cat : List Char) (fmt : List FmtTok) (args : List Arg)
    (allocOk : Bool) (h : consumesNoArg fmt = true) :
    Fmi.callback_logger_handler env inst st cat fmt args allocOk =
      FmiSys.callback_logger_handler env inst st cat fmt args allocOk := by
  obtain ⟨s, hs⟩ := vformat_of_consumesNoArg fmt h args
  rw [Fmi.src_shape env inst st cat fmt args allocOk s args hs,
    FmiSys.sys_shape env inst st cat fmt args allocOk s args hs]
  simp [hs]

/-- Witness for the amended C9 at the literal format `"ok"`. -/
theorem c9_equivalent_when_no_arg_consumed_witness :
    Fmi.callback_logger_handler 4 "m".data 2 "e".data
        [FmtTok.lit 'o', FmtTok.lit 'k'] [Arg.int 9] true =
      FmiSys.callback_logger_handler 4 "m".data 2 "e".data
        [FmtTok.lit 'o', FmtTok.lit 'k'] [Arg.int 9] true :=
  c9_equivalent_when_no_arg_consumed 4 "m".data 2 "e".data
    [FmtTok.lit 'o', FmtTok.lit 'k'] [Arg.int 9] true (by decide)

/-! ### C10 -/

/-- Largest value of the C type `int` (32-bit two's complement). -/
def INT_MAX : Int := 2147483647

/-- Smallest value of the C type `int` (32-bit two's complement). -/
def INT_MIN : Int := -2147483648

/-- Models the C expression `buffer_size + 1` in the call
`malloc(buffer_size + 1)` of both logger implementations: the addition is
performed in `int`; a result outside the `int` range is signed overflow,
which is undefined behavior, modelled as `none`. -/
def buffer_size_plus_one (buffer_size : Int) : Option Int :=
  if INT_MIN ≤ buffer_size + 1 ∧ buffer_size + 1 ≤ INT_MAX then
    some (buffer_size + 1)
  else none

/-- C10 counterexample: `INT_MAX` is a positive `int` value, yet
`buffer_size + 1` overflows there, so the claim fails at the boundary value
it explicitly includes. -/
theorem c10_overflows_at_intmax :
    0 < INT_MAX ∧ buffer_size_plus_one INT_MAX = none := by decide

/-- C10 amended: for every positive measured count strictly below
`INT_MAX`, the size `buffer_size + 1` requested from the allocator is
computed exactly, without overflow; only at the boundary `INT_MAX` itself
does the addition overflow. -/
theorem c10_no_overflow_below_intmax (n : Int) (h0 : 0 < n)
    (h1 : n < INT_MAX) : buffer_size_plus_one n = some (n + 1) := by
  unfold buffer_size_plus_one INT_MAX INT_MIN at *
  rw [if_pos]
  omega

/-- Witness for the amended C10 at the measured count `41`. -/
theorem c10_no_overflow_below_intmax_witness :
    buffer_size_plus_one 41 = some 42 :=
  c10_no_overflow_below_intmax 41 (by decide) (by decide)
